import Mathlib

/-!
Verification of the Qi window-connection messaging core
(`src/addons/addon-skeleton/ui/src/lib/scripts/qi.windowConnections.svelte.js`).

The JavaScript source is shallowly embedded: parsed JSON frames are modelled
by the inductive `Json` (the `JSON.stringify`/`JSON.parse` string layer of the
browser runtime is treated as the identity on parsed JSON trees), JavaScript
truthiness by `jsTruthy`, property access (including the `TypeError` thrown
when reading a property of `null`) by `jsGetFieldE`, and the module-level
`_messageHandlers` map (`Map<string, Set<handler>>`) by an association list
from topic strings to handler-id lists in insertion order.  Handler callbacks
are identified by natural numbers; whether a given callback throws when
invoked is a parameter `beh : Nat → Bool`.
-/

/-- A parsed JSON value (the result of `JSON.parse` on an inbound frame, or
the argument of `JSON.stringify` for an outbound one).  Numbers are modelled
as rationals: every value produced by the source (`Date.now() / 1000`) is a
rational with denominator dividing 1000. -/
inductive Json where
  | null : Json
  | bool (b : Bool) : Json
  | num (q : ℚ) : Json
  | str (s : String) : Json
  | arr (elems : List Json) : Json
  | obj (fields : List (String × Json)) : Json

/-- JavaScript truthiness of a (non-`undefined`) JSON value. -/
def jsTruthy : Json → Bool
  | Json.null => false
  | Json.bool b => b
  | Json.num q => decide (q ≠ 0)
  | Json.str s => decide (s ≠ "")
  | Json.arr _ => true
  | Json.obj _ => true

/-- Property lookup in a parsed JSON object's field list.  `JSON.parse` keeps
the LAST occurrence of a duplicated key, so lookup prefers later entries;
`none` models the JavaScript `undefined` of a missing property. -/
def lookupLast : List (String × Json) → String → Option Json
  | [], _ => none
  | (k, v) :: rest, key =>
    match lookupLast rest key with
    | some r => some r
    | none => if k = key then some v else none

/-- `value[key]` on an arbitrary (non-`null`) JSON value: objects look the key
up, every other value yields `undefined` (`none`). -/
def jsGetField : Json → String → Option Json
  | Json.obj fields, key => lookupLast fields key
  | _, _ => none

/-- `value[key]` including the JavaScript failure mode: reading a property of
`null` throws a `TypeError`. -/
def jsGetFieldE : Json → String → Except String (Option Json)
  | Json.null, _ => Except.error "TypeError: cannot read properties of null"
  | v, key => Except.ok (jsGetField v key)

/-- The heartbeat test of the `ws` message listener:
`data.pong === true || data.ping === true` (with `||` short-circuit), which
throws iff `data` is `null`. -/
def heartbeatCheck (data : Json) : Except String Bool :=
  match jsGetFieldE data "pong" with
  | Except.error e => Except.error e
  | Except.ok (some (Json.bool true)) => Except.ok true
  | Except.ok _ =>
    match jsGetFieldE data "ping" with
    | Except.error e => Except.error e
    | Except.ok (some (Json.bool true)) => Except.ok true
    | Except.ok _ => Except.ok false

/-- The module-level `_messageHandlers` map: topic string → handler-id list in
insertion order (a JS `Map` of `Set`s, both of which iterate in insertion
order). -/
abbrev HMap := List (String × List Nat)

/-- `_messageHandlers.get(topic)` (JS `Map` keys are unique, so first match). -/
def mapLookup : HMap → String → Option (List Nat)
  | [], _ => none
  | (k, v) :: rest, t => if k = t then some v else mapLookup rest t

/-- `Set.add(h)`: a no-op when the element is present, otherwise appended at
the end of the iteration order. -/
def addHandler (l : List Nat) (h : Nat) : List Nat :=
  if h ∈ l then l else l ++ [h]

/-- `qiConnection.on(topic, handler)`: create the topic's `Set` if absent
(a fresh `Map` key is appended last), then `add` the handler. -/
def qiOn : HMap → String → Nat → HMap
  | [], t, h => [(t, [h])]
  | (k, v) :: rest, t, h =>
    if k = t then (k, addHandler v h) :: rest else (k, v) :: qiOn rest t h

/-- `qiConnection.off(topic, handler)`: `Set.delete(handler)`; when the set
becomes empty the topic entry is deleted from the map. -/
def qiOff : HMap → String → Nat → HMap
  | [], _, _ => []
  | (k, v) :: rest, t, h =>
    if k = t then
      if v.filter (fun x => x ≠ h) = [] then rest
      else (k, v.filter (fun x => x ≠ h)) :: rest
    else (k, v) :: qiOff rest t h

/-- One step of the registration API. -/
inductive ROp where
  | onCall (t : String) (h : Nat) : ROp
  | offCall (t : String) (h : Nat) : ROp

/-- Apply one `on`/`off` call to the handler map. -/
def applyOp (m : HMap) : ROp → HMap
  | ROp.onCall t h => qiOn m t h
  | ROp.offCall t h => qiOff m t h

/-- The handler map reached from the initial empty `new Map()` by a sequence
of `on`/`off` calls. -/
def applyOps (ops : List ROp) : HMap :=
  ops.foldl applyOp []

/-- Invoking one handler: `beh h = true` models a callback that throws. -/
def callHandler (beh : Nat → Bool) (h : Nat) : Except String Unit :=
  if beh h then Except.error "handler threw" else Except.ok ()

/-- The dispatch loop `handlers.forEach(handler => { try { handler(envelope) }
catch (error) { console.error(...) } })`: every handler is called; a throw is
caught per-handler (recorded as `true` in the trace) and the loop continues.
Returns the invocation trace in iteration order. -/
def invokeAll (beh : Nat → Bool) : List Nat → List (Nat × Bool)
  | [] => []
  | h :: rest =>
    let entry :=
      match callHandler beh h with
      | Except.ok _ => (h, false)
      | Except.error _ => (h, true)
    entry :: invokeAll beh rest

/-- Outcome of the `ws` message listener on one inbound frame. -/
inductive FrameResult where
  | dropped : FrameResult
  | heartbeat : FrameResult
  | delivered (trace : List (Nat × Bool)) : FrameResult
  | unhandled : FrameResult

/-- The body of the listener's outer `try` block, after `JSON.parse`
succeeded: heartbeat check first, then `_messageHandlers.get(envelope.topic)`
and the guarded dispatch loop.  Exceptions escaping this body (only the
`TypeError` on `null`) propagate as `Except.error`. -/
def innerProcess (m : HMap) (beh : Nat → Bool) (data : Json) :
    Except String FrameResult :=
  match heartbeatCheck data with
  | Except.error e => Except.error e
  | Except.ok true => Except.ok FrameResult.heartbeat
  | Except.ok false =>
    match jsGetFieldE data "topic" with
    | Except.error e => Except.error e
    | Except.ok topicVal =>
      match (match topicVal with
             | some (Json.str s) => mapLookup m s
             | _ => none : Option (List Nat)) with
      | some hs =>
        if hs.isEmpty then Except.ok FrameResult.unhandled
        else Except.ok (FrameResult.delivered (invokeAll beh hs))
      | none => Except.ok FrameResult.unhandled

/-- The full `ws` message listener on one frame.  `raw = none` models a frame
whose `JSON.parse` throws; the outer `catch` turns every escaping exception
into a logged drop, so the listener itself never throws. -/
def processFrame (m : HMap) (beh : Nat → Bool) (raw : Option Json) :
    FrameResult :=
  match raw with
  | none => FrameResult.dropped
  | some data =>
    match innerProcess m beh data with
    | Except.ok r => r
    | Except.error _ => FrameResult.dropped

/-- Handler ids actually invoked for a frame outcome. -/
def invokedOf : FrameResult → List Nat
  | FrameResult.delivered trace => trace.map Prod.fst
  | _ => []

/-! ### Helper lemmas about the router model -/

theorem invokeAll_map_fst (beh : Nat → Bool) (hs : List Nat) :
    (invokeAll beh hs).map Prod.fst = hs := by
  induction hs with
  | nil => rfl
  | cons h rest ih =>
    by_cases hb : beh h <;> simp [invokeAll, callHandler, hb, ih]

theorem addHandler_ne_nil (l : List Nat) (h : Nat) : addHandler l h ≠ [] := by
  unfold addHandler
  split
  · rename_i hm
    intro hc
    subst hc
    simp at hm
  · simp

theorem mem_addHandler (l : List Nat) (h : Nat) : h ∈ addHandler l h := by
  unfold addHandler
  split
  · assumption
  · simp

theorem addHandler_nodup {l : List Nat} (h : Nat) (hn : l.Nodup) :
    (addHandler l h).Nodup := by
  by_cases hm : h ∈ l
  · simpa [addHandler, hm] using hn
  · simp [addHandler, hm, List.nodup_append, hn, List.Disjoint]
    intro a ha hae
    exact hm (hae ▸ ha)

theorem addHandler_count {l : List Nat} (h : Nat) (hn : l.Nodup) :
    (addHandler l h).count h = 1 :=
  List.count_eq_one_of_mem (addHandler_nodup h hn) (mem_addHandler l h)

theorem addHandler_idem (l : List Nat) (h : Nat) :
    addHandler (addHandler l h) h = addHandler l h := by
  show (if h ∈ addHandler l h then addHandler l h else addHandler l h ++ [h]) =
    addHandler l h
  rw [if_pos (mem_addHandler l h)]

theorem mapLookup_qiOn (m : HMap) (t : String) (h : Nat) :
    mapLookup (qiOn m t h) t = some (addHandler ((mapLookup m t).getD []) h) := by
  induction m with
  | nil => simp [qiOn, mapLookup, addHandler]
  | cons p rest ih =>
    obtain ⟨k, v⟩ := p
    by_cases hk : k = t
    · subst hk
      simp [qiOn, mapLookup]
    · simp [qiOn, mapLookup, hk, ih]

theorem mapLookup_nodup {m : HMap} {t : String} {l : List Nat}
    (hall : ∀ p ∈ m, List.Nodup p.2) (hlk : mapLookup m t = some l) :
    l.Nodup := by
  induction m with
  | nil => simp [mapLookup] at hlk
  | cons p rest ih =>
    obtain ⟨k, v⟩ := p
    by_cases hk : k = t
    · subst hk
      simp [mapLookup] at hlk
      subst hlk
      exact hall (k, v) (List.mem_cons_self _ _)
    · simp [mapLookup, hk] at hlk
      exact ih (fun q hq => hall q (List.mem_cons_of_mem _ hq)) hlk

theorem allNodup_qiOn {m : HMap} (t : String) (h : Nat)
    (hall : ∀ p ∈ m, List.Nodup p.2) :
    ∀ p ∈ qiOn m t h, List.Nodup p.2 := by
  induction m with
  | nil =>
    intro p hp
    simp [qiOn] at hp
    subst hp
    simp
  | cons q rest ih =>
    obtain ⟨k, v⟩ := q
    by_cases hk : k = t
    · subst hk
      intro p hp
      simp [qiOn] at hp
      rcases hp with hp | hp
      · subst hp
        exact addHandler_nodup h (hall (k, v) (List.mem_cons_self _ _))
      · exact hall p (List.mem_cons_of_mem _ hp)
    · intro p hp
      simp [qiOn, hk] at hp
      rcases hp with hp | hp
      · subst hp
        exact hall (k, v) (List.mem_cons_self _ _)
      · exact ih (fun q hq => hall q (List.mem_cons_of_mem _ hq)) p hp

theorem allNodup_qiOff {m : HMap} (t : String) (h : Nat)
    (hall : ∀ p ∈ m, List.Nodup p.2) :
    ∀ p ∈ qiOff m t h, List.Nodup p.2 := by
  induction m with
  | nil =>
    intro p hp
    simp [qiOff] at hp
  | cons q rest ih =>
    obtain ⟨k, v⟩ := q
    intro p hp
    by_cases hk : k = t
    · subst hk
      simp only [qiOff, if_pos rfl] at hp
      by_cases hv : v.filter (fun x => x ≠ h) = []
      · rw [if_pos hv] at hp
        exact hall p (List.mem_cons_of_mem _ hp)
      · rw [if_neg hv] at hp
        rcases List.mem_cons.mp hp with hp | hp
        · subst hp
          exact List.Nodup.filter _ (hall (k, v) (List.mem_cons_self _ _))
        · exact hall p (List.mem_cons_of_mem _ hp)
    · simp only [qiOff, if_neg hk] at hp
      rcases List.mem_cons.mp hp with hp | hp
      · subst hp
        exact hall (k, v) (List.mem_cons_self _ _)
      · exact ih (fun q hq => hall q (List.mem_cons_of_mem _ hq)) p hp

theorem allNodup_applyOps (ops : List ROp) :
    ∀ p ∈ applyOps ops, List.Nodup p.2 := by
  suffices haux : ∀ (ops : List ROp) (m : HMap),
      (∀ p ∈ m, List.Nodup p.2) → ∀ p ∈ List.foldl applyOp m ops, List.Nodup p.2 by
    exact haux ops [] (by intro p hp; simp at hp)
  intro ops
  induction ops with
  | nil => intro m hm; simpa using hm
  | cons op rest ih =>
    intro m hm
    simp only [List.foldl_cons]
    refine ih (applyOp m op) ?_
    cases op with
    | onCall t h => exact allNodup_qiOn t h hm
    | offCall t h => exact allNodup_qiOff t h hm

/-- A frame whose heartbeat test succeeds is swallowed by the listener. -/
theorem processFrame_of_heartbeat {j : Json} (m : HMap) (beh : Nat → Bool)
    (hb : heartbeatCheck j = Except.ok true) :
    processFrame m beh (some j) = FrameResult.heartbeat := by
  have hinner : innerProcess m beh j = Except.ok FrameResult.heartbeat := by
    unfold innerProcess
    rw [hb]
  simp [processFrame, hinner]

/-- Evaluation of the listener on a pure-envelope frame carrying only a
`topic` field. -/
theorem processFrame_topic (m : HMap) (beh : Nat → Bool) (t : String) :
    processFrame m beh (some (Json.obj [("topic", Json.str t)])) =
      (match mapLookup m t with
       | some hs =>
         if hs.isEmpty then FrameResult.unhandled
         else FrameResult.delivered (invokeAll beh hs)
       | none => FrameResult.unhandled) := by
  have key : innerProcess m beh (Json.obj [("topic", Json.str t)]) =
      (match mapLookup m t with
       | some hs =>
         if hs.isEmpty then Except.ok FrameResult.unhandled
         else Except.ok (FrameResult.delivered (invokeAll beh hs))
       | none => Except.ok FrameResult.unhandled) := rfl
  cases hlk : mapLookup m t with
  | none => simp [processFrame, key, hlk]
  | some hs =>
    by_cases he : hs.isEmpty <;> simp [processFrame, key, hlk, he]

/-- Appending a fresh topic: `on` for an unregistered topic adds its entry at
the end of the map. -/
theorem qiOn_lookup_none {m : HMap} {t : String} (h : Nat)
    (habs : mapLookup m t = none) :
    qiOn m t h = m ++ [(t, [h])] := by
  induction m with
  | nil => rfl
  | cons p rest ih =>
    obtain ⟨k, v⟩ := p
    by_cases hk : k = t
    · subst hk
      simp [mapLookup] at habs
    · simp [mapLookup, hk] at habs
      simp [qiOn, hk, ih habs]

/-- `off` on the just-added last entry removes it and restores the map. -/
theorem qiOff_append_self {m : HMap} {t : String} (h : Nat)
    (habs : mapLookup m t = none) :
    qiOff (m ++ [(t, [h])]) t h = m := by
  induction m with
  | nil => simp [qiOff]
  | cons p rest ih =>
    obtain ⟨k, v⟩ := p
    by_cases hk : k = t
    · subst hk
      simp [mapLookup] at habs
    · simp [mapLookup, hk] at habs
      simp [qiOff, hk, ih habs]

theorem qiOn_no_empty {m : HMap} (t : String) (h : Nat)
    (hm : ∀ p ∈ m, p.2 ≠ []) : ∀ p ∈ qiOn m t h, p.2 ≠ [] := by
  induction m with
  | nil =>
    intro p hp
    simp [qiOn] at hp
    subst hp
    simp
  | cons q rest ih =>
    obtain ⟨k, v⟩ := q
    intro p hp
    by_cases hk : k = t
    · subst hk
      simp only [qiOn, if_pos rfl] at hp
      rcases List.mem_cons.mp hp with hp | hp
      · subst hp
        exact addHandler_ne_nil v h
      · exact hm p (List.mem_cons_of_mem _ hp)
    · simp only [qiOn, if_neg hk] at hp
      rcases List.mem_cons.mp hp with hp | hp
      · subst hp
        exact hm (k, v) (List.mem_cons_self _ _)
      · exact ih (fun q hq => hm q (List.mem_cons_of_mem _ hq)) p hp

theorem qiOff_no_empty {m : HMap} (t : String) (h : Nat)
    (hm : ∀ p ∈ m, p.2 ≠ []) : ∀ p ∈ qiOff m t h, p.2 ≠ [] := by
  induction m with
  | nil =>
    intro p hp
    simp [qiOff] at hp
  | cons q rest ih =>
    obtain ⟨k, v⟩ := q
    intro p hp
    by_cases hk : k = t
    · subst hk
      simp only [qiOff, if_pos rfl] at hp
      by_cases hv : v.filter (fun x => x ≠ h) = []
      · rw [if_pos hv] at hp
        exact hm p (List.mem_cons_of_mem _ hp)
      · rw [if_neg hv] at hp
        rcases List.mem_cons.mp hp with hp | hp
        · subst hp
          exact hv
        · exact hm p (List.mem_cons_of_mem _ hp)
    · simp only [qiOff, if_neg hk] at hp
      rcases List.mem_cons.mp hp with hp | hp
      · subst hp
        exact hm (k, v) (List.mem_cons_self _ _)
      · exact ih (fun q hq => hm q (List.mem_cons_of_mem _ hq)) p hp

/-- Every handler map reachable from the initial empty map maps each
registered topic to a nonempty handler set. -/
theorem applyOps_no_empty (ops : List ROp) : ∀ p ∈ applyOps ops, p.2 ≠ [] := by
  suffices haux : ∀ (ops : List ROp) (m : HMap),
      (∀ p ∈ m, p.2 ≠ []) → ∀ p ∈ List.foldl applyOp m ops, p.2 ≠ [] by
    exact haux ops [] (by intro p hp; simp at hp)
  intro ops
  induction ops with
  | nil => intro m hm; simpa using hm
  | cons op rest ih =>
    intro m hm
    simp only [List.foldl_cons]
    refine ih (applyOp m op) ?_
    cases op with
    | onCall t h => exact qiOn_no_empty t h hm
    | offCall t h => exact qiOff_no_empty t h hm

/-! ### Claim theorems: inbound routing -/

/-- Claim C5 (heartbeat precedence): an inbound frame of the heartbeat shape,
`{"ping": true}` or `{"pong": true}`, is recognized and swallowed by the
message listener before any envelope-shaped processing — the listener returns
the heartbeat outcome and no topic handler is invoked, for every handler map
and every handler behavior. -/
theorem heartbeat_swallowed (m : HMap) (beh : Nat → Bool) :
    processFrame m beh (some (Json.obj [("ping", Json.bool true)])) =
      FrameResult.heartbeat ∧
    processFrame m beh (some (Json.obj [("pong", Json.bool true)])) =
      FrameResult.heartbeat ∧
    invokedOf (processFrame m beh
      (some (Json.obj [("ping", Json.bool true)]))) = [] ∧
    invokedOf (processFrame m beh
      (some (Json.obj [("pong", Json.bool true)]))) = [] := by
  have h1 := @processFrame_of_heartbeat (Json.obj [("ping", Json.bool true)])
    m beh rfl
  have h2 := @processFrame_of_heartbeat (Json.obj [("pong", Json.bool true)])
    m beh rfl
  exact ⟨h1, h2, by rw [h1]; rfl, by rw [h2]; rfl⟩

/-- Claim C10 (heartbeat classification is by key presence only): every parsed
object frame whose top-level `ping` or `pong` property is literally `true` is
swallowed as a heartbeat regardless of any other fields it carries — even a
frame that also carries full envelope fields is never delivered to any topic
handler; the decoder does not verify the frame consists of exactly one key. -/
theorem heartbeat_key_presence (m : HMap) (beh : Nat → Bool)
    (fs : List (String × Json))
    (hb : lookupLast fs "ping" = some (Json.bool true) ∨
          lookupLast fs "pong" = some (Json.bool true)) :
    processFrame m beh (some (Json.obj fs)) = FrameResult.heartbeat ∧
    invokedOf (processFrame m beh (some (Json.obj fs))) = [] := by
  have hchk : heartbeatCheck (Json.obj fs) = Except.ok true := by
    unfold heartbeatCheck
    have e1 : jsGetFieldE (Json.obj fs) "pong" =
        Except.ok (lookupLast fs "pong") := rfl
    have e2 : jsGetFieldE (Json.obj fs) "ping" =
        Except.ok (lookupLast fs "ping") := rfl
    rw [e1, e2]
    rcases hb with h | h
    · cases hpong : lookupLast fs "pong" with
      | none => rw [h]
      | some v =>
        cases v with
        | bool b =>
          cases b with
          | true => rfl
          | false => rw [h]
        | null => rw [h]
        | num q => rw [h]
        | str s => rw [h]
        | arr elems => rw [h]
        | obj gs => rw [h]
    · rw [h]
  have hmain := processFrame_of_heartbeat m beh hchk
  exact ⟨hmain, by rw [hmain]; rfl⟩

/-- Concrete frame mixing full envelope fields with a heartbeat key, used to
witness the key-presence classification. -/
def mixedFrameFields : List (String × Json) :=
  [("message_id", Json.str "m-1"), ("topic", Json.str "wm.window.opened"),
   ("payload", Json.obj [("success", Json.bool true)]),
   ("ping", Json.bool true)]

theorem heartbeat_key_presence_witness :
    (lookupLast mixedFrameFields "ping" = some (Json.bool true) ∨
     lookupLast mixedFrameFields "pong" = some (Json.bool true)) ∧
    processFrame [("wm.window.opened", [1])] (fun _ => false)
      (some (Json.obj mixedFrameFields)) = FrameResult.heartbeat ∧
    invokedOf (processFrame [("wm.window.opened", [1])] (fun _ => false)
      (some (Json.obj mixedFrameFields))) = [] := by
  have h := heartbeat_key_presence [("wm.window.opened", [1])] (fun _ => false)
    mixedFrameFields (Or.inl rfl)
  exact ⟨Or.inl rfl, h.1, h.2⟩

/-- Claim C6 (handler isolation in dispatch): for an inbound envelope frame
whose topic has registered handlers, every registered handler is invoked, in
registration order, whatever subset of them throws — a thrown handler error is
caught inside the dispatch loop, so it neither prevents the remaining handlers
from running nor escapes the message-handling path (the listener body returns
normally, it never propagates an exception). -/
theorem handler_isolation (m : HMap) (beh : Nat → Bool) (data : Json)
    (t : String) (hs : List Nat)
    (hnb : heartbeatCheck data = Except.ok false)
    (ht : jsGetField data "topic" = some (Json.str t))
    (hlk : mapLookup m t = some hs)
    (hne : hs ≠ []) :
    innerProcess m beh data =
      Except.ok (FrameResult.delivered (invokeAll beh hs)) ∧
    processFrame m beh (some data) = FrameResult.delivered (invokeAll beh hs) ∧
    (invokeAll beh hs).map Prod.fst = hs := by
  have hnn : data ≠ Json.null := by
    intro hd
    subst hd
    simp [heartbeatCheck, jsGetFieldE] at hnb
  have he : jsGetFieldE data "topic" = Except.ok (jsGetField data "topic") := by
    cases data with
    | null => exact absurd rfl hnn
    | bool b => rfl
    | num q => rfl
    | str s => rfl
    | arr elems => rfl
    | obj fields => rfl
  rw [ht] at he
  have hinner : innerProcess m beh data =
      Except.ok (FrameResult.delivered (invokeAll beh hs)) := by
    have step : innerProcess m beh data =
        (match mapLookup m t with
         | some l =>
           if l.isEmpty then Except.ok FrameResult.unhandled
           else Except.ok (FrameResult.delivered (invokeAll beh l))
         | none => Except.ok FrameResult.unhandled) := by
      unfold innerProcess
      rw [hnb, he]
    rw [step, hlk]
    cases hs with
    | nil => exact absurd rfl hne
    | cons a l => rfl
  exact ⟨hinner, by simp [processFrame, hinner], invokeAll_map_fst beh hs⟩

/-- Concrete dispatch scenario for the isolation witness: two handlers on one
topic, the first of which throws. -/
def isoFrame : Json :=
  Json.obj [("topic", Json.str "demo.topic"), ("payload", Json.obj [])]

theorem handler_isolation_witness :
    heartbeatCheck isoFrame = Except.ok false ∧
    jsGetField isoFrame "topic" = some (Json.str "demo.topic") ∧
    mapLookup [("demo.topic", [1, 2])] "demo.topic" = some [1, 2] ∧
    ([1, 2] : List Nat) ≠ [] ∧
    innerProcess [("demo.topic", [1, 2])] (fun h => h = 1) isoFrame =
      Except.ok (FrameResult.delivered [(1, true), (2, false)]) ∧
    processFrame [("demo.topic", [1, 2])] (fun h => h = 1) (some isoFrame) =
      FrameResult.delivered [(1, true), (2, false)] ∧
    ([(1, true), (2, false)] : List (Nat × Bool)).map Prod.fst = [1, 2] := by
  have h := handler_isolation [("demo.topic", [1, 2])] (fun h => h = 1)
    isoFrame "demo.topic" [1, 2] rfl rfl rfl (by simp)
  exact ⟨rfl, rfl, rfl, by simp, h.1, h.2.1, h.2.2⟩

/-- Claim C7 (registration idempotence): starting from any handler map
reachable through `on`/`off` calls, calling `on(topic, handler)` twice with
the same pair and then dispatching one envelope for that topic invokes the
handler exactly once — `Set` semantics, no duplicate invocation. -/
theorem on_idempotent_dispatch (ops : List ROp) (t : String) (h : Nat)
    (beh : Nat → Bool) :
    (invokedOf (processFrame (qiOn (qiOn (applyOps ops) t h) t h) beh
      (some (Json.obj [("topic", Json.str t)])))).count h = 1 := by
  have hall := allNodup_applyOps ops
  have h1 := mapLookup_qiOn (applyOps ops) t h
  have h2 := mapLookup_qiOn (qiOn (applyOps ops) t h) t h
  rw [h1] at h2
  simp only [Option.getD_some] at h2
  rw [addHandler_idem] at h2
  have hl0 : ((mapLookup (applyOps ops) t).getD []).Nodup := by
    cases hlk : mapLookup (applyOps ops) t with
    | none => simp
    | some l => simpa using mapLookup_nodup hall hlk
  have hnil := addHandler_ne_nil ((mapLookup (applyOps ops) t).getD []) h
  rw [processFrame_topic, h2]
  simp [invokedOf, invokeAll_map_fst, List.isEmpty_iff, hnil,
    addHandler_count h hl0]

/-- Claim C8 (unsubscription leaves no empty entries): for a topic not yet
registered, `on(topic, h)` followed by `off(topic, h)` restores the map
exactly, the topic key is absent afterwards and a dispatch for that topic
invokes no handler; and after any sequence of `on`/`off` operations from the
initial empty map, no topic entry ever holds an empty handler set. -/
theorem off_deletes_topic (m : HMap) (t : String) (h : Nat) (beh : Nat → Bool)
    (habs : mapLookup m t = none) :
    qiOff (qiOn m t h) t h = m ∧
    mapLookup (qiOff (qiOn m t h) t h) t = none ∧
    invokedOf (processFrame (qiOff (qiOn m t h) t h) beh
      (some (Json.obj [("topic", Json.str t)]))) = [] ∧
    ∀ ops : List ROp, ∀ p ∈ applyOps ops, p.2 ≠ [] := by
  have hback : qiOff (qiOn m t h) t h = m := by
    rw [qiOn_lookup_none h habs]
    exact qiOff_append_self h habs
  refine ⟨hback, ?_, ?_, fun ops => applyOps_no_empty ops⟩
  · rw [hback]
    exact habs
  · rw [hback, processFrame_topic, habs]
    rfl

theorem off_deletes_topic_witness :
    mapLookup [("other.topic", [5])] "wm.window.moved" = none ∧
    qiOff (qiOn [("other.topic", [5])] "wm.window.moved" 7)
      "wm.window.moved" 7 = [("other.topic", [5])] ∧
    mapLookup (qiOff (qiOn [("other.topic", [5])] "wm.window.moved" 7)
      "wm.window.moved" 7) "wm.window.moved" = none ∧
    invokedOf (processFrame
      (qiOff (qiOn [("other.topic", [5])] "wm.window.moved" 7)
        "wm.window.moved" 7) (fun _ => false)
      (some (Json.obj [("topic", Json.str "wm.window.moved")]))) = [] := by
  have h := off_deletes_topic [("other.topic", [5])] "wm.window.moved" 7
    (fun _ => false) rfl
  exact ⟨rfl, h.1, h.2.1, h.2.2.1⟩

/-! ### Identity resolution and window-scoped context detection -/

/-- Left cancellation for string concatenation (used for window-scoped
storage keys `"qiContext_" + window_id`). -/
theorem string_append_left_cancel {a b c : String} (h : a ++ b = a ++ c) :
    b = c := by
  have hd : (a ++ b).data = (a ++ c).data := congrArg String.data h
  rw [String.data_append, String.data_append] at hd
  exact String.ext (List.append_cancel_left hd)

/-- The business-context record `{project, entity, task}` (each slot a JSON
value: a string or `null`). -/
structure Ctx where
  project : Json
  entity : Json
  task : Json

/-- The values of `urlParams.get("project"|"entity"|"task")` for one window's
location: `URLSearchParams.get` returns a string or `null` (`none`). -/
structure UrlCtx where
  project : Option String
  entity : Option String
  task : Option String

/-- The per-origin `sessionStorage`, restricted to the parsed context records:
`none` models an absent key (`getItem` returning `null`, parsed via the
`|| "{}"` fallback to the empty record). -/
abbrev Store := String → Option Ctx

/-- `sessionStorage.setItem(k, JSON.stringify(v))` (or, with `none`, removal
of the key). -/
def storeUpdate (storage : Store) (k : String) (v : Option Ctx) : Store :=
  fun k' => if k' = k then v else storage k'

/-- JS `x || b` where `x` may be `undefined` (`none`, e.g. an absent object
property). -/
def jsOrOpt (a : Option Json) (b : Json) : Json :=
  match a with
  | some v => if jsTruthy v then v else b
  | none => b

/-- `getContextField`: resolve one context field from the sources in priority
order `urlParams.get(field) || stored[field] || global[field] || path[field]
|| null`. -/
def getContextField (urlv : Option String) (storedv globalv pathv : Option Json) :
    Json :=
  jsOrOpt (urlv.map Json.str)
    (jsOrOpt storedv (jsOrOpt globalv (jsOrOpt pathv Json.null)))

/-- The window-scoped storage key `` `qiContext_${window_id}` ``. -/
def ctxKey (window_id : String) : String :=
  "qiContext_" ++ window_id

/-- `detectContextForWindow(window_id)`: resolve each field from URL
parameters, the window-scoped stored record, the injected global
`window.qi_context` and the (always empty) path record, then persist the
record under the window-scoped key iff at least one field is truthy.  Returns
the context together with the possibly-updated storage. -/
def detectContextForWindow (url : UrlCtx) (glob : Option Ctx)
    (storage : Store) (window_id : String) : Ctx × Store :=
  let stored := storage (ctxKey window_id)
  let context : Ctx :=
    { project := getContextField url.project (stored.map Ctx.project)
        (glob.map Ctx.project) none,
      entity := getContextField url.entity (stored.map Ctx.entity)
        (glob.map Ctx.entity) none,
      task := getContextField url.task (stored.map Ctx.task)
        (glob.map Ctx.task) none }
  (context,
    if jsTruthy context.project || jsTruthy context.entity ||
        jsTruthy context.task then
      storeUpdate storage (ctxKey window_id) (some context)
    else storage)

/-- The `window_id` resolution of `initQiConnection`: the connection-time URL
parameter is used when it is a nonempty string, otherwise a fresh
`` `window_${crypto.randomUUID()}` `` fallback is generated (never read from
the shared persisted store). -/
def resolveWindowIdentity (param : Option String) (freshUuid : String) :
    String :=
  match param with
  | some s => if s = "" then "window_" ++ freshUuid else s
  | none => "window_" ++ freshUuid

/-- Claim C1 (window isolation): two windows initialized with distinct
connection-time `window_id` parameters (with the generated fallbacks fresh:
distinct from each other and from the other window's parameter) resolve to
distinct window identities, and the context detected for the second window is
unchanged by any modification of the context record persisted under the first
window's window-scoped storage key (two-run noninterference). -/
theorem window_isolation (p1 p2 : Option String) (f1 f2 : String)
    (hp : p1 ≠ p2) (hf : f1 ≠ f2)
    (hfresh1 : p2 ≠ some ("window_" ++ f1))
    (hfresh2 : p1 ≠ some ("window_" ++ f2))
    (url : UrlCtx) (glob : Option Ctx) (storage : Store) (c : Option Ctx) :
    resolveWindowIdentity p1 f1 ≠ resolveWindowIdentity p2 f2 ∧
    (detectContextForWindow url glob
        (storeUpdate storage (ctxKey (resolveWindowIdentity p1 f1)) c)
        (resolveWindowIdentity p2 f2)).1 =
      (detectContextForWindow url glob storage
        (resolveWindowIdentity p2 f2)).1 := by
  have hfb : ("window_" ++ f1 : String) ≠ "window_" ++ f2 := by
    intro he
    exact hf (string_append_left_cancel he)
  have hne : resolveWindowIdentity p1 f1 ≠ resolveWindowIdentity p2 f2 := by
    cases p1 with
    | none =>
      cases p2 with
      | none => exact absurd rfl hp
      | some s2 =>
        by_cases h2 : s2 = ""
        · subst h2
          simpa [resolveWindowIdentity] using hfb
        · simp only [resolveWindowIdentity, if_neg h2]
          intro he
          exact hfresh1 (by rw [he])
    | some s1 =>
      cases p2 with
      | none =>
        by_cases h1 : s1 = ""
        · subst h1
          simpa [resolveWindowIdentity] using hfb
        · simp only [resolveWindowIdentity, if_neg h1]
          intro he
          exact hfresh2 (by rw [← he])
      | some s2 =>
        by_cases h1 : s1 = "" <;> by_cases h2 : s2 = ""
        · subst h1; subst h2
          exact absurd rfl hp
        · subst h1
          simp only [resolveWindowIdentity, if_pos rfl, if_neg h2, if_true,
            eq_self_iff_true]
          intro he
          exact hfresh1 (by rw [he])
        · subst h2
          simp only [resolveWindowIdentity, if_neg h1, if_pos rfl, if_true,
            eq_self_iff_true]
          intro he
          exact hfresh2 (by rw [← he])
        · simp only [resolveWindowIdentity, if_neg h1, if_neg h2]
          intro he
          exact hp (by rw [he])
  refine ⟨hne, ?_⟩
  have hkey : ctxKey (resolveWindowIdentity p1 f1) ≠
      ctxKey (resolveWindowIdentity p2 f2) := by
    intro he
    exact hne (string_append_left_cancel he)
  have hlk : storeUpdate storage (ctxKey (resolveWindowIdentity p1 f1)) c
      (ctxKey (resolveWindowIdentity p2 f2)) =
      storage (ctxKey (resolveWindowIdentity p2 f2)) := by
    simp [storeUpdate, if_neg (Ne.symm hkey)]
  simp only [detectContextForWindow, hlk]

theorem window_isolation_witness :
    (some "W1" : Option String) ≠ some "W2" ∧
    ("aaa" : String) ≠ "bbb" ∧
    (some "W2" : Option String) ≠ some ("window_" ++ "aaa") ∧
    (some "W1" : Option String) ≠ some ("window_" ++ "bbb") ∧
    resolveWindowIdentity (some "W1") "aaa" ≠
      resolveWindowIdentity (some "W2") "bbb" ∧
    (detectContextForWindow ⟨none, none, none⟩ none
        (storeUpdate (fun _ => none)
          (ctxKey (resolveWindowIdentity (some "W1") "aaa"))
          (some ⟨Json.str "tamperedProject", Json.null, Json.null⟩))
        (resolveWindowIdentity (some "W2") "bbb")).1 =
      (detectContextForWindow ⟨none, none, none⟩ none (fun _ => none)
        (resolveWindowIdentity (some "W2") "bbb")).1 := by
  have h := window_isolation (some "W1") (some "W2") "aaa" "bbb"
    (by decide) (by decide) (by decide) (by decide)
    ⟨none, none, none⟩ none (fun _ => none)
    (some ⟨Json.str "tamperedProject", Json.null, Json.null⟩)
  exact ⟨by decide, by decide, by decide, by decide, h.1, h.2⟩

/-! ### The emitter (`qiConnection.emit`) and the envelope codec -/

/-- JS `a || b` on values (no `undefined` involved). -/
def jsOr (a b : Json) : Json :=
  if jsTruthy a then a else b

/-- The reactive connection state used by `emit` (the `socket` slot is
modelled by the `sendOk` flag of `emitRun`). -/
structure QiState where
  session_id : Json
  addon : Json
  window_id : Json
  context : Option Ctx
  user : Json
  connected : Bool

/-- A caller-supplied `context` override object: `none` in a slot models a
property that is absent (`undefined`), `some v` a property set to `v`
(possibly explicitly `Json.null`). -/
structure CtxOverride where
  project : Option Json
  entity : Option Json
  task : Option Json

/-- A caller-supplied `source` override object for power routing, with the
same `undefined`-vs-value encoding as `CtxOverride`. -/
structure SourceOverride where
  addon : Option Json
  session_id : Option Json
  window_id : Option Json
  user : Option Json

/-- The `source` block of an outgoing envelope. -/
structure SourceRec where
  addon : Json
  session_id : Json
  window_id : Json
  user : Json

/-- The options object of `emit(topic, options)` after destructuring with its
defaults (`payload = {}`, `context = null`, `user = null`, `reply_to = null`,
`source = null`); absent object options are `none` / `Json.null`. -/
structure EmitOptions where
  payload : Json
  context : Option CtxOverride
  user : Json
  reply_to : Json
  source : Option SourceOverride

/-- `qiConnection.context?.field || null`: the stored-context fallback used by
`emit` (optional chaining on a `null` stored context gives `undefined`, which
`|| null` collapses to `null`, as it does a falsy stored field). -/
def storedCtxField (stc : Option Ctx) (f : Ctx → Json) : Json :=
  match stc with
  | some c => jsOr (f c) Json.null
  | none => Json.null

/-- The `finalContext` computation of `emit`: with a (truthy) `context`
override each field uses the override value whenever it is not `undefined`
(ternary on `!== undefined`), otherwise the stored-context fallback; with no
override, all three fields take the stored-context fallback. -/
def buildFinalContext (st : QiState) (ctxOv : Option CtxOverride) : Ctx :=
  match ctxOv with
  | some ov =>
    { project :=
        match ov.project with
        | some v => v
        | none => storedCtxField st.context Ctx.project,
      entity :=
        match ov.entity with
        | some v => v
        | none => storedCtxField st.context Ctx.entity,
      task :=
        match ov.task with
        | some v => v
        | none => storedCtxField st.context Ctx.task }
  | none =>
    { project := storedCtxField st.context Ctx.project,
      entity := storedCtxField st.context Ctx.entity,
      task := storedCtxField st.context Ctx.task }

/-- The `finalSource` computation of `emit`: in power-routing mode (`source`
override supplied) `addon` and `session_id` fall back through `||`, while
`window_id` and `user` use a `!== undefined` ternary; `user` further falls
back through `user || qiConnection.user || null`.  In normal mode the local
identity is used with the same user chain. -/
def buildFinalSource (st : QiState) (srcOv : Option SourceOverride)
    (userArg : Json) : SourceRec :=
  match srcOv with
  | some ov =>
    { addon :=
        match ov.addon with
        | some v => jsOr v st.addon
        | none => st.addon,
      session_id :=
        match ov.session_id with
        | some v => jsOr v st.session_id
        | none => st.session_id,
      window_id :=
        match ov.window_id with
        | some v => v
        | none => st.window_id,
      user :=
        match ov.user with
        | some v => v
        | none => jsOr userArg (jsOr st.user Json.null) }
  | none =>
    { addon := st.addon,
      session_id := st.session_id,
      window_id := st.window_id,
      user := jsOr userArg (jsOr st.user Json.null) }

/-- The envelope fields determined by the caller and the connection state
(everything except the freshly generated `message_id` and `timestamp`). -/
structure EnvFields where
  topic : String
  payload : Json
  context : Ctx
  source : SourceRec
  user : Json
  reply_to : Json

/-- The field merge performed by `emit` before building the envelope object
(`finalContext`, `finalSource`, `finalUser = user || qiConnection.user ||
null`). -/
def buildEnvFields (st : QiState) (topic : String) (opts : EmitOptions) :
    EnvFields :=
  { topic := topic,
    payload := opts.payload,
    context := buildFinalContext st opts.context,
    source := buildFinalSource st opts.source opts.user,
    user := jsOr opts.user (jsOr st.user Json.null),
    reply_to := opts.reply_to }

def ctxToJson (c : Ctx) : Json :=
  Json.obj [("project", c.project), ("entity", c.entity), ("task", c.task)]

def sourceToJson (s : SourceRec) : Json :=
  Json.obj [("addon", s.addon), ("session_id", s.session_id),
            ("window_id", s.window_id), ("user", s.user)]

/-- The envelope object literal built by `emit`: fresh `message_id` from
`crypto.randomUUID()` and `timestamp = Date.now() / 1000` (wall-clock
milliseconds at encode time, divided exactly in `ℚ`). -/
def encodeEnvelope (f : EnvFields) (freshId : String) (nowMs : ℕ) : Json :=
  Json.obj [("message_id", Json.str freshId), ("topic", Json.str f.topic),
    ("payload", f.payload), ("context", ctxToJson f.context),
    ("source", sourceToJson f.source), ("user", f.user),
    ("reply_to", f.reply_to), ("timestamp", Json.num ((nowMs : ℚ) / 1000))]

def ctxFromJson : Json → Option Ctx
  | Json.obj fs =>
    match lookupLast fs "project", lookupLast fs "entity",
          lookupLast fs "task" with
    | some p, some e, some t => some ⟨p, e, t⟩
    | _, _, _ => none
  | _ => none

def sourceFromJson : Json → Option SourceRec
  | Json.obj fs =>
    match lookupLast fs "addon", lookupLast fs "session_id",
          lookupLast fs "window_id", lookupLast fs "user" with
    | some a, some s, some w, some u => some ⟨a, s, w, u⟩
    | _, _, _, _ => none
  | _ => none

/-- Reading the caller-determined envelope fields back out of a parsed wire
frame (the receiver treats the parsed JSON object as the envelope). -/
def decodeEnvFields (j : Json) : Option EnvFields :=
  match jsGetField j "topic" with
  | some (Json.str t) =>
    match jsGetField j "payload", jsGetField j "context",
          jsGetField j "source", jsGetField j "user",
          jsGetField j "reply_to" with
    | some p, some cj, some sj, some u, some r =>
      match ctxFromJson cj, sourceFromJson sj with
      | some c, some s => some ⟨t, p, c, s, u, r⟩
      | _, _ => none
    | _, _, _, _, _ => none
  | _ => none

def wireMessageId (j : Json) : Option Json :=
  jsGetField j "message_id"

def wireTimestamp (j : Json) : Option Json :=
  jsGetField j "timestamp"

/-- `qiConnection.socket.send(JSON.stringify(envelope))`: `sendOk = false`
models a send or serialization failure (a thrown exception). -/
def trySend (sendOk : Bool) (_frame : Json) : Except String Unit :=
  if sendOk then Except.ok () else Except.error "send failed"

/-- The full `emit` call: guard on `connected` (warn and return), build the
envelope, then send inside `try`/`catch` (a failure is logged and the call
aborted).  Returns the unchanged state and the list of frames actually put on
the socket; an `Except.error` result would model an exception escaping to the
caller. -/
def emitRun (st : QiState) (topic : String) (opts : EmitOptions)
    (freshId : String) (nowMs : ℕ) (sendOk : Bool) :
    Except String (QiState × List Json) :=
  if st.connected = false then Except.ok (st, [])
  else
    let frame := encodeEnvelope (buildEnvFields st topic opts) freshId nowMs
    match trySend sendOk frame with
    | Except.ok _ => Except.ok (st, [frame])
    | Except.error _ => Except.ok (st, [])

/-- Connection state with a stored context whose `project` slot is the empty
string (reachable through `updateContext({project: ""})`). -/
def stC3 : QiState :=
  { session_id := Json.str "S1", addon := Json.str "addon-a",
    window_id := Json.str "W1",
    context := some ⟨Json.str "", Json.str "B", Json.null⟩,
    user := Json.null, connected := true }

/-- Context override that leaves `project` undefined. -/
def ovC3 : CtxOverride := ⟨none, some (Json.str "X"), none⟩

/-- Counterexample to claim C3 as stated: with stored context field
`project = ""` and an override that leaves `project` undefined, the envelope
context's `project` is `null`, not the stored field — the fallback is
`qiConnection.context?.project || null`, which collapses a falsy stored field
to `null` instead of using it verbatim. -/
theorem context_override_counterexample :
    ovC3.project = none ∧
    stC3.context = some ⟨Json.str "", Json.str "B", Json.null⟩ ∧
    (buildFinalContext stC3 (some ovC3)).project = Json.null ∧
    Json.null ≠ Json.str "" := by
  refine ⟨rfl, rfl, rfl, ?_⟩
  intro h
  exact Json.noConfusion h

/-- Claim C3, amended (emitter context override precedence): with a `context`
override, each envelope context field equals the override field whenever that
field is not `undefined` (an explicit `null` override wins); an undefined
override field — and likewise every field when no override is supplied —
falls back to `qiConnection.context?.field || null`, i.e. the stored Context
field when that field is truthy and `null` otherwise (in particular an
empty-string or `null` stored field yields `null`).  The claim's concrete
instance holds: stored `{project:"A", entity:"B", task:null}` with override
`{project:"C"}` yields `{project:"C", entity:"B", task:null}`. -/
theorem context_override_precedence (st : QiState) (ov : CtxOverride) :
    ((∀ v, ov.project = some v →
        (buildFinalContext st (some ov)).project = v) ∧
     (∀ v, ov.entity = some v →
        (buildFinalContext st (some ov)).entity = v) ∧
     (∀ v, ov.task = some v →
        (buildFinalContext st (some ov)).task = v)) ∧
    ((ov.project = none →
        (buildFinalContext st (some ov)).project =
          storedCtxField st.context Ctx.project) ∧
     (ov.entity = none →
        (buildFinalContext st (some ov)).entity =
          storedCtxField st.context Ctx.entity) ∧
     (ov.task = none →
        (buildFinalContext st (some ov)).task =
          storedCtxField st.context Ctx.task)) ∧
    buildFinalContext st none =
      ⟨storedCtxField st.context Ctx.project,
       storedCtxField st.context Ctx.entity,
       storedCtxField st.context Ctx.task⟩ ∧
    (st.context = some ⟨Json.str "A", Json.str "B", Json.null⟩ →
      buildFinalContext st (some ⟨some (Json.str "C"), none, none⟩) =
        ⟨Json.str "C", Json.str "B", Json.null⟩) := by
  refine ⟨⟨?_, ?_, ?_⟩, ⟨?_, ?_, ?_⟩, rfl, ?_⟩
  · intro v hv
    simp [buildFinalContext, hv]
  · intro v hv
    simp [buildFinalContext, hv]
  · intro v hv
    simp [buildFinalContext, hv]
  · intro hv
    simp [buildFinalContext, hv]
  · intro hv
    simp [buildFinalContext, hv]
  · intro hv
    simp [buildFinalContext, hv]
  · intro hc
    simp [buildFinalContext, storedCtxField, hc, jsOr, jsTruthy]

/-- Connection state holding the claim's example context. -/
def stC3ok : QiState :=
  { session_id := Json.str "S1", addon := Json.str "addon-a",
    window_id := Json.str "W1",
    context := some ⟨Json.str "A", Json.str "B", Json.null⟩,
    user := Json.null, connected := true }

theorem context_override_precedence_witness :
    stC3ok.context = some ⟨Json.str "A", Json.str "B", Json.null⟩ ∧
    buildFinalContext stC3ok (some ⟨some (Json.str "C"), none, none⟩) =
      ⟨Json.str "C", Json.str "B", Json.null⟩ := by
  have h := context_override_precedence stC3ok
    ⟨some (Json.str "C"), none, none⟩
  exact ⟨rfl, h.2.2.2 rfl⟩

/-- Connection state with a truthy stored user (reachable via
`updateUser`, which always produces an object), used to refute the claimed
user fallback order. -/
def stC4 : QiState :=
  { session_id := Json.str "S1", addon := Json.str "addon-a",
    window_id := Json.str "W1", context := none,
    user := Json.obj [("name", Json.str "storedUser")],
    connected := true }

/-- A `source` override that leaves every field undefined (power-routing mode
engaged, no per-field values). -/
def ovC4 : SourceOverride := ⟨none, none, none, none⟩

/-- A truthy explicit `user` argument to `emit`. -/
def argUserC4 : Json := Json.obj [("name", Json.str "argUser")]

/-- Counterexample to claim C4 as stated: the claim's fallback chain for
`user` is override → LOCAL identity → explicit `user` argument → null, so
with the override's `user` undefined and a truthy stored local user the
envelope source's `user` should be the stored user.  The code computes
`source.user !== undefined ? source.user : user || qiConnection.user || null`
— the explicit `user` argument outranks the stored user — so with both
truthy, the envelope carries the argument, not the local identity's user. -/
theorem power_routing_user_counterexample :
    ovC4.user = none ∧
    jsTruthy argUserC4 = true ∧
    jsTruthy stC4.user = true ∧
    (buildFinalSource stC4 (some ovC4) argUserC4).user = argUserC4 ∧
    argUserC4 ≠ stC4.user := by
  refine ⟨rfl, rfl, rfl, rfl, ?_⟩
  intro h
  have h1 := Json.obj.inj h
  simp [argUserC4, stC4] at h1

/-- Claim C4, amended (power-routing source precedence): with a `source`
override, `addon`, `session_id` and `window_id` independently fall back from
the override value to the local identity value — a field absent from the
override takes the local value, a truthy override field wins (for `window_id`
any non-undefined override wins) — while an undefined `user` override falls
back to the explicit `user` argument FIRST, then the stored local user, then
`null` (the argument outranks the local identity, unlike the claim's stated
order).  The claim's concrete instance holds: `source {window_id:"W2"}` with
local session `S1` and no `user` yields `window_id "W2"` and
`session_id S1`. -/
theorem power_routing_source (st : QiState) (ov : SourceOverride)
    (userArg : Json) :
    ((ov.addon = none →
        (buildFinalSource st (some ov) userArg).addon = st.addon) ∧
     (∀ v, ov.addon = some v → jsTruthy v = true →
        (buildFinalSource st (some ov) userArg).addon = v)) ∧
    ((ov.session_id = none →
        (buildFinalSource st (some ov) userArg).session_id = st.session_id) ∧
     (∀ v, ov.session_id = some v → jsTruthy v = true →
        (buildFinalSource st (some ov) userArg).session_id = v)) ∧
    ((ov.window_id = none →
        (buildFinalSource st (some ov) userArg).window_id = st.window_id) ∧
     (∀ v, ov.window_id = some v →
        (buildFinalSource st (some ov) userArg).window_id = v)) ∧
    ((ov.user = none → (buildFinalSource st (some ov) userArg).user =
        jsOr userArg (jsOr st.user Json.null)) ∧
     (∀ v, ov.user = some v →
        (buildFinalSource st (some ov) userArg).user = v)) := by
  refine ⟨⟨?_, ?_⟩, ⟨?_, ?_⟩, ⟨?_, ?_⟩, ⟨?_, ?_⟩⟩
  · intro hv
    simp [buildFinalSource, hv]
  · intro v hv htr
    simp [buildFinalSource, hv, jsOr, htr]
  · intro hv
    simp [buildFinalSource, hv]
  · intro v hv htr
    simp [buildFinalSource, hv, jsOr, htr]
  · intro hv
    simp [buildFinalSource, hv]
  · intro v hv
    simp [buildFinalSource, hv]
  · intro hv
    simp [buildFinalSource, hv]
  · intro v hv
    simp [buildFinalSource, hv]

/-- Local identity for the power-routing witness (local session `S1`). -/
def stS1 : QiState :=
  { session_id := Json.str "S1", addon := Json.str "addon-a",
    window_id := Json.str "W1", context := none, user := Json.null,
    connected := true }

theorem power_routing_source_witness :
    (buildFinalSource stS1 (some ⟨none, none, some (Json.str "W2"), none⟩)
      Json.null).window_id = Json.str "W2" ∧
    (buildFinalSource stS1 (some ⟨none, none, some (Json.str "W2"), none⟩)
      Json.null).session_id = Json.str "S1" := by
  have h := power_routing_source stS1 ⟨none, none, some (Json.str "W2"), none⟩
    Json.null
  exact ⟨h.2.2.1.2 (Json.str "W2") rfl, h.2.1.1 rfl⟩

/-- Claim C9 (disconnected emit is an atomic no-op): `emit` never lets an
exception escape to the caller — for every state and send outcome it returns
normally with the state unchanged — and when the `connected` flag is false it
sends nothing, queues nothing and leaves the state untouched. -/
theorem emit_disconnected_noop (st : QiState) (topic : String)
    (opts : EmitOptions) (freshId : String) (nowMs : ℕ) (sendOk : Bool) :
    (∃ sent, emitRun st topic opts freshId nowMs sendOk =
      Except.ok (st, sent)) ∧
    (st.connected = false →
      emitRun st topic opts freshId nowMs sendOk = Except.ok (st, [])) := by
  constructor
  · by_cases hc : st.connected = false
    · exact ⟨[], by simp [emitRun, hc]⟩
    · by_cases hs : sendOk
      · exact ⟨[encodeEnvelope (buildEnvFields st topic opts) freshId nowMs],
          by simp [emitRun, hc, trySend, hs]⟩
      · exact ⟨[], by simp [emitRun, hc, trySend, hs]⟩
  · intro hc
    simp [emitRun, hc]

/-- Disconnected connection state for the no-op witness. -/
def stDisc : QiState :=
  { session_id := Json.str "S1", addon := Json.str "addon-a",
    window_id := Json.str "W1", context := none, user := Json.null,
    connected := false }

/-- The destructuring defaults of `emit` when called with no options. -/
def defaultOpts : EmitOptions :=
  { payload := Json.obj [], context := none, user := Json.null,
    reply_to := Json.null, source := none }

theorem emit_disconnected_noop_witness :
    stDisc.connected = false ∧
    emitRun stDisc "wm.window.open" defaultOpts "uuid-w" 1700000000000 true =
      Except.ok (stDisc, []) := by
  have h := emit_disconnected_noop stDisc "wm.window.open" defaultOpts
    "uuid-w" 1700000000000 true
  exact ⟨rfl, h.2 rfl⟩

/-- Concrete envelope field set for the codec counterexample and witness. -/
def rtFields : EnvFields :=
  { topic := "demo.topic", payload := Json.obj [],
    context := ⟨Json.null, Json.null, Json.null⟩,
    source := ⟨Json.str "addon-a", Json.str "S1", Json.str "W1", Json.null⟩,
    user := Json.null, reply_to := Json.null }

/-- Counterexample to claim C2 as stated: two successive encodes of identical
input within the same `Date.now()` millisecond (fresh, distinct message ids
`"uuidA"` and `"uuidB"`) produce EQUAL timestamps — `timestamp` is
`Date.now() / 1000`, which the code does not force to differ between calls. -/
theorem codec_timestamp_counterexample :
    ("uuidA" : String) ≠ "uuidB" ∧
    wireTimestamp (encodeEnvelope rtFields "uuidA" 1700000000000) =
      wireTimestamp (encodeEnvelope rtFields "uuidB" 1700000000000) := by
  exact ⟨by decide, rfl⟩

/-- Claim C2, amended (codec round-trip and freshness): decoding an encoded
envelope reproduces every caller-determined field (topic, payload, context,
source, user, reply_to); the encoded frame is never mistaken for a heartbeat;
`message_id` is the fresh per-call id, so two encodes with distinct fresh ids
have distinct message ids; and the timestamps of two encodes differ whenever
the wall-clock milliseconds at the two encode times differ (but not
otherwise — see the counterexample). -/
theorem codec_roundtrip (f : EnvFields) (id1 id2 : String) (t1 t2 : ℕ) :
    decodeEnvFields (encodeEnvelope f id1 t1) = some f ∧
    heartbeatCheck (encodeEnvelope f id1 t1) = Except.ok false ∧
    wireMessageId (encodeEnvelope f id1 t1) = some (Json.str id1) ∧
    (id1 ≠ id2 → wireMessageId (encodeEnvelope f id1 t1) ≠
      wireMessageId (encodeEnvelope f id2 t2)) ∧
    (t1 ≠ t2 → wireTimestamp (encodeEnvelope f id1 t1) ≠
      wireTimestamp (encodeEnvelope f id2 t2)) := by
  refine ⟨rfl, rfl, rfl, ?_, ?_⟩
  · intro hne he
    have e1 : wireMessageId (encodeEnvelope f id1 t1) =
        some (Json.str id1) := rfl
    have e2 : wireMessageId (encodeEnvelope f id2 t2) =
        some (Json.str id2) := rfl
    rw [e1, e2] at he
    exact hne (Json.str.inj (Option.some.inj he))
  · intro hne he
    have e1 : wireTimestamp (encodeEnvelope f id1 t1) =
        some (Json.num ((t1 : ℚ) / 1000)) := rfl
    have e2 : wireTimestamp (encodeEnvelope f id2 t2) =
        some (Json.num ((t2 : ℚ) / 1000)) := rfl
    rw [e1, e2] at he
    have h4 : ((t1 : ℚ) / 1000) = ((t2 : ℚ) / 1000) :=
      Json.num.inj (Option.some.inj he)
    field_simp at h4
    exact hne (by exact_mod_cast h4)

theorem codec_roundtrip_witness :
    decodeEnvFields (encodeEnvelope rtFields "uuid1" 1700000000123) =
      some rtFields ∧
    ("uuid1" : String) ≠ "uuid2" ∧
    (1700000000123 : ℕ) ≠ 1700000000124 ∧
    wireMessageId (encodeEnvelope rtFields "uuid1" 1700000000123) ≠
      wireMessageId (encodeEnvelope rtFields "uuid2" 1700000000124) ∧
    wireTimestamp (encodeEnvelope rtFields "uuid1" 1700000000123) ≠
      wireTimestamp (encodeEnvelope rtFields "uuid2" 1700000000124) := by
  have h := codec_roundtrip rtFields "uuid1" "uuid2"
    1700000000123 1700000000124
  exact ⟨h.1, by decide, by decide, h.2.2.2.1 (by decide),
    h.2.2.2.2 (by decide)⟩
